import Mathlib

/-!
# Verification of the `arduino` USB-serial transport and logging pipeline

Shallow embedding of `src/serial/mod.rs`, `src/serial/log.rs` and
`src/serial/ansi.rs`.  Hardware primitives (the `extern "C"` USB-CDC calls)
and the monotonic millisecond clock are modelled as explicit parameters:
the receive buffer is a list of bytes, each poll iteration of the bounded
read is driven by a trace of (newly-arrived bytes, clock value) pairs.
Machine integers are `Nat` with explicit `% 2^32` where u32 wrap matters.
-/

namespace Arduino

/-! ## Embedding of `src/serial/ansi.rs` -/

/-- `ansi.rs` line 3, `ANSI_ESCAPE`: the escape character U+001B followed by
an opening square bracket. -/
def ANSI_ESCAPE : String := "\x1B["

/-- `ansi.rs` line 4: `const ANSI_ESCAPE_END: &str = "m"`. -/
def ANSI_ESCAPE_END : String := "m"

/-- `ansi.rs` `enum Color`; the `TrueColor` variant carries the u8 RGB triple
as `Nat`s. -/
inductive Color
  | black | red | green | yellow | blue | magenta | cyan | white
  | lightBlack | lightRed | lightGreen | lightYellow
  | lightBlue | lightMagenta | lightCyan | lightWhite
  | trueColor (r g b : Nat)
  deriving DecidableEq, Repr

/-- `ansi.rs` `enum Style`. -/
inductive Style
  | clear | bold | dimmed | underline | reversed
  | italic | blink | hidden | strikethrough
  deriving DecidableEq, Repr

/-- `ansi.rs` `struct EscapeSequence`: optional foreground, optional
background, slice of styles (embedded as a list). -/
structure EscapeSequence where
  fg : Option Color
  bg : Option Color
  styles : List Style
  deriving DecidableEq, Repr

/-- `EscapeSequence::new()`. -/
def EscapeSequence.new : EscapeSequence := { bg := none, fg := none, styles := [] }

/-- `EscapeSequence::set_fg`. -/
def EscapeSequence.set_fg (s : EscapeSequence) (color : Color) : EscapeSequence :=
  { s with fg := some color }

/-- `EscapeSequence::set_bg`. -/
def EscapeSequence.set_bg (s : EscapeSequence) (color : Color) : EscapeSequence :=
  { s with bg := some color }

/-- `EscapeSequence::set_styles`. -/
def EscapeSequence.set_styles (s : EscapeSequence) (styles : List Style) : EscapeSequence :=
  { s with styles := styles }

/-- Foreground rendering of one color, `ansi.rs` lines 103-127: a `TrueColor`
renders as the extended `38;2;R;G;B` form, named colors by the fixed table. -/
def Color.fgRender : Color → String
  | .trueColor r g b => "38;2;" ++ toString r ++ ";" ++ toString g ++ ";" ++ toString b
  | .black => "30"
  | .red => "31"
  | .green => "32"
  | .yellow => "33"
  | .blue => "34"
  | .magenta => "35"
  | .cyan => "36"
  | .white => "37"
  | .lightBlack => "90"
  | .lightRed => "91"
  | .lightGreen => "92"
  | .lightYellow => "93"
  | .lightBlue => "94"
  | .lightMagenta => "95"
  | .lightCyan => "96"
  | .lightWhite => "97"

/-- Background rendering of one color, `ansi.rs` lines 130-154. -/
def Color.bgRender : Color → String
  | .trueColor r g b => "48;2;" ++ toString r ++ ";" ++ toString g ++ ";" ++ toString b
  | .black => "40"
  | .red => "41"
  | .green => "42"
  | .yellow => "43"
  | .blue => "44"
  | .magenta => "45"
  | .cyan => "46"
  | .white => "47"
  | .lightBlack => "100"
  | .lightRed => "101"
  | .lightGreen => "102"
  | .lightYellow => "103"
  | .lightBlue => "104"
  | .lightMagenta => "105"
  | .lightCyan => "106"
  | .lightWhite => "107"

/-- Style code table, `ansi.rs` lines 156-168. -/
def Style.render : Style → String
  | .clear => "0"
  | .bold => "1"
  | .dimmed => "2"
  | .italic => "3"
  | .underline => "4"
  | .blink => "5"
  | .reversed => "7"
  | .hidden => "8"
  | .strikethrough => "9"

/-- `impl Display for EscapeSequence` with color enabled (`ansi.rs` lines
97-172): introducer, foreground code if set, background code if set, style
codes in the order supplied, terminator. -/
def EscapeSequence.render (s : EscapeSequence) : String :=
  ANSI_ESCAPE
    ++ (match s.fg with
        | none => ""
        | some color => color.fgRender)
    ++ (match s.bg with
        | none => ""
        | some color => color.bgRender)
    ++ String.join (s.styles.map Style.render)
    ++ ANSI_ESCAPE_END

/-- `impl Display for EscapeSequence` under the `no_color` feature
(`ansi.rs` lines 174-179): writes nothing, whatever the spec holds. -/
def EscapeSequence.renderNoColor (_ : EscapeSequence) : String := ""

/-! ## Embedding of `src/serial/log.rs`

The `log` crate types used by `log.rs` are external collaborators.  They are
modelled from their documented semantics, matching the spec's data model:
`Level` is the totally ordered severity enumeration (Error most severe, with
the crate's numeric representation Error = 1 .. Trace = 5), `LevelFilter`
adds `Off` = 0, and `Level <= LevelFilter` compares those numbers. -/

/-- Severity levels of the `log` crate, numeric order Error = 1 .. Trace = 5. -/
inductive Level
  | error | warn | info | debug | trace
  deriving DecidableEq, Repr

/-- The crate's numeric representation of a `Level` (`Error` = 1, least). -/
def Level.toNat : Level → Nat
  | .error => 1
  | .warn => 2
  | .info => 3
  | .debug => 4
  | .trace => 5

/-- `LevelFilter` of the `log` crate: `Off` = 0 below all the levels. -/
inductive LevelFilter
  | off | error | warn | info | debug | trace
  deriving DecidableEq, Repr

/-- Numeric representation of a `LevelFilter`. -/
def LevelFilter.toNat : LevelFilter → Nat
  | .off => 0
  | .error => 1
  | .warn => 2
  | .info => 3
  | .debug => 4
  | .trace => 5

/-- `level <= filter` of the `log` crate: comparison of the numeric
representations.  A severity is admitted against a threshold iff it is at
least as severe, that is numerically at most the threshold. -/
def Level.le (l : Level) (f : LevelFilter) : Bool :=
  l.toNat ≤ f.toNat

/-- `Display` of a `log` crate `Level`: its uppercase name. -/
def Level.text : Level → String
  | .error => "ERROR"
  | .warn => "WARN"
  | .info => "INFO"
  | .debug => "DEBUG"
  | .trace => "TRACE"

/-- A record's metadata: severity plus target string. -/
structure Metadata where
  level : Level
  target : String
  deriving DecidableEq, Repr

/-- A log record: metadata plus the message text (`record.args()`). -/
structure Record where
  level : Level
  target : String
  message : String
  deriving DecidableEq, Repr

/-- The metadata of a record. -/
def Record.metadata (r : Record) : Metadata := { level := r.level, target := r.target }

/-- `log.rs` `struct LoggingConfig`: max level plus the target filter slice. -/
structure LoggingConfig where
  max_level : LevelFilter
  filters : List (String × Option LevelFilter)
  deriving DecidableEq, Repr

/-- `log.rs` `struct USBLogger`: enabled flag and installed filter slice. -/
structure USBLogger where
  enabled : Bool
  filters : List (String × Option LevelFilter)
  deriving DecidableEq, Repr

/-- `USBLogger::new()` (`log.rs` lines 55-60): disabled, no filters. -/
def USBLogger.new : USBLogger := { enabled := false, filters := [] }

/-- `SetLoggerError` of the `log` crate: returned when a logger is already
installed.  Modelled from the spec: the process-wide diagnostic sink registry
accepts at most one sink installation; installing a second sink fails. -/
inductive SetLoggerError
  | alreadySet
  deriving DecidableEq, Repr

/-- The process-wide mutable state the embedded operations touch:
`SERIAL_TIMEOUT` (`mod.rs` line 82), the `LOGGER` static (`log.rs` line 52),
the `log` crate's one-shot logger registration, and the `log` crate's
process-wide max level (`LevelFilter::Off` before any `set_max_level`). -/
structure ProcessState where
  serialTimeout : Nat
  logger : USBLogger
  loggerInstalled : Bool
  maxLevel : LevelFilter
  deriving DecidableEq, Repr

/-- The state at process start: `SERIAL_TIMEOUT` is `AtomicU32::new(1000)`,
the logger static is `USBLogger::new()`, no logger is registered, and the
`log` crate max level is `Off`. -/
def initialState : ProcessState :=
  { serialTimeout := 1000
    logger := USBLogger.new
    loggerInstalled := false
    maxLevel := .off }

/-- `USBSerial::set_timeout` (`mod.rs` lines 86-88): store the new timeout
into `SERIAL_TIMEOUT`; nothing else is touched. -/
def USBSerial.set_timeout (timeout : Nat) (s : ProcessState) : ProcessState :=
  { s with serialTimeout := timeout % 2 ^ 32 }

/-- `USBLogger::init` (`log.rs` lines 63-70): unconditionally set
`LOGGER.enabled = true` and `LOGGER.filters = config.filters`, then attempt
`log::set_logger`, which fails if a logger is already installed; only on
success is `log::set_max_level(config.max_level)` run. -/
def USBLogger.init (config : LoggingConfig) (s : ProcessState) :
    Except SetLoggerError Unit × ProcessState :=
  let s := { s with logger := { enabled := true, filters := config.filters } }
  if s.loggerInstalled then
    (.error .alreadySet, s)
  else
    (.ok (), { s with loggerInstalled := true, maxLevel := config.max_level })

/-- `USBLogger::filtered` (`log.rs` lines 75-88): an empty filter slice admits
everything; otherwise look up the first entry whose target equals the
record's target (`Iterator::position` then indexing) and admit iff it has no
level or the record's level passes it; no entry found rejects. -/
def USBLogger.filtered (lg : USBLogger) (metadata : Metadata) : Bool :=
  if lg.filters.isEmpty then
    true
  else
    match lg.filters.find? (fun p => p.1 == metadata.target) with
    | some (_, lvl) =>
        lvl.isNone || (lvl.filter (fun l => metadata.level.le l)).isSome
    | none => false

/-- `<USBLogger as Log>::enabled` (`log.rs` lines 92-96): enabled flag, level
against the process-wide max level, and the target filter. -/
def USBLogger.enabledOn (lg : USBLogger) (maxLevel : LevelFilter) (metadata : Metadata) : Bool :=
  lg.enabled && metadata.level.le maxLevel && lg.filtered metadata

/-- The severity-to-color table of `<USBLogger as Log>::log`
(`log.rs` lines 102-108). -/
def levelColor : Level → Color
  | .error => .lightRed
  | .warn => .lightYellow
  | .info => .lightBlue
  | .debug => .magenta
  | .trace => .lightBlack

/-- `<USBLogger as Log>::log` (`log.rs` lines 98-123): if the record is
enabled, produce the formatted line
`writeln!(.., "[..]: ..\r", fg(color), level, clear(), target, millis(), args)`
(the trailing `\n` comes from `writeln!`); otherwise nothing is written. -/
def USBLogger.log (lg : USBLogger) (maxLevel : LevelFilter) (now : Nat) (record : Record) :
    Option String :=
  if lg.enabledOn maxLevel record.metadata then
    some ("[" ++ (EscapeSequence.new.set_fg (levelColor record.level)).render
        ++ record.level.text
        ++ (EscapeSequence.new.set_styles [Style.clear]).render
        ++ " " ++ record.target
        ++ " " ++ toString now
        ++ "]: " ++ record.message
        ++ "\r" ++ "\n")
  else
    none

/-! ## Embedding of `src/serial/mod.rs`

The hardware receive side is modelled explicitly: the bytes buffered in the
USB-CDC receive buffer form a list `pending`, and `usb_serial_read(dst, size)`
copies `min(size, pending.length)` of them into the destination at the given
offset, returning that count — the documented contract of the primitive
("read a block of bytes to a buffer. returns the size read", bytes already
buffered at the instant of the call).  For the polling loop each iteration of
the trace supplies the bytes that newly arrived before that iteration's
hardware read and the `millis()` value observed at that iteration's
timeout check. -/

/-- Overwrite `buffer[off ..)` with `data` (a bounded in-place copy into a
caller-supplied buffer). -/
def writeAt (buffer : List Nat) (off : Nat) (data : List Nat) : List Nat :=
  buffer.take off ++ data ++ buffer.drop (off + data.length)

/-- Model of the `usb_serial_read` primitive: from `pending` buffered bytes,
copy `min(size, pending.length)` into `buffer` at offset `off`; result is
(count, new buffer contents, bytes still buffered). -/
def usb_serial_read (pending buffer : List Nat) (off size : Nat) :
    Nat × List Nat × List Nat :=
  let n := min size pending.length
  (n, writeAt buffer off (pending.take n), pending.drop n)

/-- `USBSerial::read_bytes` (`mod.rs` lines 221-227): one `usb_serial_read`
into the start of the buffer, capped at `avaliable().min(buffer.len())`;
result is (count, buffer contents after the call). -/
def USBSerial.read_bytes (pending buffer : List Nat) : Nat × List Nat :=
  let avaliable_bytes := min pending.length buffer.length
  let r := usb_serial_read pending buffer 0 avaliable_bytes
  (r.1, r.2.1)

/-- One poll iteration of the bounded read: the bytes that arrived in the
hardware buffer just before this iteration's `usb_serial_read`, and the
`millis()` value at this iteration's timeout check. -/
structure PollStep where
  arrivals : List Nat
  clock : Nat
  deriving DecidableEq, Repr

/-- The `loop` of `USBSerial::read_bytes_timeout` (`mod.rs` lines 204-217),
driven by a finite trace of poll iterations.  Each iteration reads
`usb_serial_read(buffer + count, length - count)` and adds the returned size
to `count`; then `if count >= length { return count }`; then
`if millis() - start_millis < SERIAL_TIMEOUT { return count }` (u32 wrapping
subtraction, hence the `% 2^32`) — note the comparison's direction, taken
verbatim from the source.  `none` means the loop was still running when the
modelled trace ran out. -/
def read_bytes_timeout_go (timeout start length : Nat) :
    List PollStep → List Nat → List Nat → Nat → Option (Nat × List Nat)
  | [], _, _, _ => none
  | step :: rest, pending, buffer, count =>
    let pending := pending ++ step.arrivals
    let r := usb_serial_read pending buffer count (length - count)
    let count := count + r.1
    if count ≥ length then
      some (count, r.2.1)
    else if (step.clock - start) % 2 ^ 32 < timeout then
      some (count, r.2.1)
    else
      read_bytes_timeout_go timeout start length rest r.2.2 r.2.1 count

/-- `USBSerial::read_bytes_timeout` (`mod.rs` lines 196-218): `count` starts
at 0, `length` is the buffer length, `start` is the `millis()` captured on
entry, and the loop polls under the process-wide `SERIAL_TIMEOUT`. -/
def USBSerial.read_bytes_timeout (s : ProcessState) (start : Nat)
    (steps : List PollStep) (pending buffer : List Nat) : Option (Nat × List Nat) :=
  read_bytes_timeout_go s.serialTimeout start buffer.length steps pending buffer 0

/-- `USBSerial::stop_bits` (`mod.rs` lines 151-160): take
`usb_cdc_line_coding[1].to_be_bytes()[0]` — the most significant byte of the
32-bit register — and map 0 to 1, leaving every other value unchanged. -/
def USBSerial.stop_bits (coding1 : Nat) : Nat :=
  let b := coding1 / 2 ^ 24 % 256
  if b = 0 then 1 else b

/-- UTF-8 validation and decoding, the semantics of `str::from_utf8`:
accepts exactly the standard encodings (no overlongs, no surrogates, max
U+10FFFF), decoding to the scalar values.  Continuation bytes are in
`[0x80, 0xC0)`; a lead `[0xC2, 0xE0)` starts a 2-byte sequence, `[0xE0, 0xF0)`
a 3-byte one (second byte restricted for 0xE0 and 0xED), `[0xF0, 0xF5)` a
4-byte one (second byte restricted for 0xF0 and 0xF4). -/
def utf8Decode : List Nat → Option (List Nat)
  | [] => some []
  | b₁ :: rest =>
    if b₁ < 0x80 then
      (utf8Decode rest).map (b₁ :: ·)
    else if b₁ < 0xC2 then
      none
    else if b₁ < 0xE0 then
      match rest with
      | b₂ :: rest =>
        if 0x80 ≤ b₂ ∧ b₂ < 0xC0 then
          (utf8Decode rest).map (((b₁ - 0xC0) * 64 + (b₂ - 0x80)) :: ·)
        else none
      | [] => none
    else if b₁ < 0xF0 then
      match rest with
      | b₂ :: b₃ :: rest =>
        let lo₂ := if b₁ = 0xE0 then 0xA0 else 0x80
        let hi₂ := if b₁ = 0xED then 0xA0 else 0xC0
        if (lo₂ ≤ b₂ ∧ b₂ < hi₂) ∧ (0x80 ≤ b₃ ∧ b₃ < 0xC0) then
          (utf8Decode rest).map
            (((b₁ - 0xE0) * 4096 + (b₂ - 0x80) * 64 + (b₃ - 0x80)) :: ·)
        else none
      | _ => none
    else if b₁ < 0xF5 then
      match rest with
      | b₂ :: b₃ :: b₄ :: rest =>
        let lo₂ := if b₁ = 0xF0 then 0x90 else 0x80
        let hi₂ := if b₁ = 0xF4 then 0x90 else 0xC0
        if (lo₂ ≤ b₂ ∧ b₂ < hi₂) ∧ (0x80 ≤ b₃ ∧ b₃ < 0xC0) ∧ (0x80 ≤ b₄ ∧ b₄ < 0xC0) then
          (utf8Decode rest).map
            (((b₁ - 0xF0) * 262144 + (b₂ - 0x80) * 4096 + (b₃ - 0x80) * 64 + (b₄ - 0x80)) :: ·)
        else none
      | _ => none
    else
      none

/-- A `Utf8Error` (`str::from_utf8` failure); the payload is irrelevant to
the embedded control flow. -/
inductive Utf8Error
  | invalid
  deriving DecidableEq, Repr

/-- `USBSerial::read_str` (`mod.rs` lines 244-254): run `read_bytes` over the
shared 256-byte scratch buffer, return `Ok(None)` on a zero-byte read, else
decode `BUFFER[..read_in]` as UTF-8, erroring on invalid bytes. -/
def USBSerial.read_str (pending scratch : List Nat) :
    Except Utf8Error (Option (List Nat)) :=
  let r := USBSerial.read_bytes pending scratch
  if r.1 = 0 then
    .ok none
  else
    match utf8Decode (r.2.take r.1) with
    | some s => .ok (some s)
    | none => .error .invalid

/-- `USBSerial::read_str_timeout` (`mod.rs` lines 231-241): run
`read_bytes_timeout` over the shared 256-byte scratch buffer, return
`Ok(None)` on a zero-byte read, else decode `BUFFER[..read_in]` as UTF-8.
`none` means the underlying polling loop outran the modelled trace. -/
def USBSerial.read_str_timeout (s : ProcessState) (start : Nat)
    (steps : List PollStep) (pending scratch : List Nat) :
    Option (Except Utf8Error (Option (List Nat))) :=
  match USBSerial.read_bytes_timeout s start steps pending scratch with
  | none => none
  | some (read_in, buf) =>
    some (if read_in = 0 then
        .ok none
      else
        match utf8Decode (buf.take read_in) with
        | some str => .ok (some str)
        | none => .error .invalid)

/-! ## Specification-side definitions

These follow the specification's words, to be compared against the
source-derived definitions above. -/

/-- The target-filter admission rule as the specification words it: an empty
table admits every record; otherwise the record is admitted iff an
exact-match entry for its target exists (the first such entry, every entry
before it having a different target) and either that entry has no override
severity or the record's severity is at least as severe as the override. -/
def specTargetAdmits (filters : List (String × Option LevelFilter)) (m : Metadata) : Prop :=
  filters = [] ∨
  ∃ pre entry post,
    filters = pre ++ entry :: post ∧
    (∀ x ∈ pre, x.1 ≠ m.target) ∧
    entry.1 = m.target ∧
    (entry.2 = none ∨ ∃ l, entry.2 = some l ∧ m.level.le l = true)

/-- The severity-to-color table as the specification words it:
Error→bright-red, Warn→bright-yellow, Info→bright-blue, Debug→magenta,
Trace→bright-black. -/
def specSeverityColor : Level → Color
  | .error => .lightRed
  | .warn => .lightYellow
  | .info => .lightBlue
  | .debug => .magenta
  | .trace => .lightBlack

/-- The process state after a first successful `USBLogger::init` installing
the filter table `[("motor", Warn)]` with max level `Info`. -/
def stateAfterFirstInit : ProcessState :=
  (USBLogger.init { max_level := .info, filters := [("motor", some .warn)] } initialState).2

/-! ## Helper lemmas -/

/-- A bounded overwrite preserves the buffer length. -/
theorem writeAt_length (buffer data : List Nat) (off : Nat)
    (h : off + data.length ≤ buffer.length) :
    (writeAt buffer off data).length = buffer.length := by
  simp only [writeAt, List.length_append, List.length_take, List.length_drop]
  omega

/-- A bounded overwrite leaves the suffix beyond the written region intact. -/
theorem writeAt_drop (buffer data : List Nat) (off k : Nat)
    (hoff : off ≤ buffer.length) (hk : off + data.length ≤ k) :
    (writeAt buffer off data).drop k = buffer.drop k := by
  have hlen : (buffer.take off ++ data).length = off + data.length := by
    simp only [List.length_append, List.length_take]
    omega
  calc (writeAt buffer off data).drop k
      = ((buffer.take off ++ data) ++ buffer.drop (off + data.length)).drop k := by
        simp [writeAt]
    _ = buffer.drop k := by
        rw [List.drop_append_eq_append_drop]
        have h1 : (buffer.take off ++ data).drop k = [] := by
          apply List.drop_eq_nil_of_le
          omega
        rw [h1, List.nil_append, hlen, List.drop_drop]
        congr 1
        omega

/-- An overwrite at the start of the buffer is the data followed by the
untouched tail. -/
theorem writeAt_zero (buffer data : List Nat) :
    writeAt buffer 0 data = data ++ buffer.drop data.length := by
  simp [writeAt]

/-- `read_bytes` characterized: the count is `min A L` and the buffer
afterwards is that prefix of the stream followed by the untouched tail. -/
theorem read_bytes_eq (pending buffer : List Nat) :
    USBSerial.read_bytes pending buffer
      = (min pending.length buffer.length,
         pending.take (min pending.length buffer.length)
           ++ buffer.drop (min pending.length buffer.length)) := by
  have hmin : min (min pending.length buffer.length) pending.length
      = min pending.length buffer.length := by omega
  have htake : (pending.take (min pending.length buffer.length)).length
      = min pending.length buffer.length := by
    simp only [List.length_take]
    omega
  simp only [USBSerial.read_bytes, usb_serial_read, hmin, writeAt_zero, htake]

/-- Invariant of the polling loop: whenever the loop exits with a result,
the count never shrank, never exceeds the buffer length, the buffer keeps
its length, and the region past the final count is untouched. -/
theorem read_bytes_timeout_go_bounds (timeout start length : Nat) (steps : List PollStep) :
    ∀ (pending buffer : List Nat) (count : Nat),
      buffer.length = length → count ≤ length →
      ∀ result : Nat × List Nat,
        read_bytes_timeout_go timeout start length steps pending buffer count = some result →
        count ≤ result.1 ∧ result.1 ≤ length ∧ result.2.length = length ∧
          result.2.drop result.1 = buffer.drop result.1 := by
  induction steps with
  | nil =>
    intro pending buffer count hlen hcount result h
    simp [read_bytes_timeout_go] at h
  | cons step rest ih =>
    intro pending buffer count hlen hcount result h
    simp only [read_bytes_timeout_go, usb_serial_read] at h
    set P := pending ++ step.arrivals with hP
    set n := min (length - count) P.length with hn
    have hnle : n ≤ length - count := Nat.min_le_left _ _
    have hnP : n ≤ P.length := Nat.min_le_right _ _
    have htake : (P.take n).length = n := by
      simp only [List.length_take]
      omega
    have hfull : count + (P.take n).length ≤ buffer.length := by
      rw [htake, hlen]
      omega
    have hBlen : (writeAt buffer count (P.take n)).length = length := by
      rw [writeAt_length buffer _ count hfull, hlen]
    have hBdrop : ∀ k, count + n ≤ k →
        (writeAt buffer count (P.take n)).drop k = buffer.drop k := by
      intro k hk
      exact writeAt_drop buffer _ count k (by omega) (by rw [htake]; omega)
    split at h
    · -- buffer full: the loop returns (count + n, written buffer)
      obtain rfl : (count + n, writeAt buffer count (P.take n)) = result := by
        exact Option.some.inj h
      refine ⟨Nat.le_add_right _ _, by omega, hBlen, hBdrop _ (Nat.le_refl _)⟩
    · split at h
      · -- timeout comparison fires: same payload returned
        obtain rfl : (count + n, writeAt buffer count (P.take n)) = result := by
          exact Option.some.inj h
        refine ⟨Nat.le_add_right _ _, by omega, hBlen, hBdrop _ (Nat.le_refl _)⟩
      · -- the loop continues on the rest of the trace
        have hcount₁ : count + n ≤ length := by omega
        obtain ⟨h₁, h₂, h₃, h₄⟩ :=
          ih (P.drop n) (writeAt buffer count (P.take n)) (count + n) hBlen hcount₁ result h
        refine ⟨by omega, h₂, h₃, ?_⟩
        rw [h₄, hBdrop result.1 h₁]

/-- `List.find?` for the exact-target test, `some` case characterized: the
result is the first entry whose target matches. -/
theorem find?_target_eq_some (m : Metadata) (entry : String × Option LevelFilter) :
    ∀ filters : List (String × Option LevelFilter),
      filters.find? (fun p => p.1 == m.target) = some entry ↔
        ∃ pre post, filters = pre ++ entry :: post ∧
          (∀ x ∈ pre, x.1 ≠ m.target) ∧ entry.1 = m.target := by
  intro filters
  induction filters with
  | nil =>
    constructor
    · intro h
      exact Option.noConfusion h
    · rintro ⟨pre, post, hEq, -, -⟩
      cases pre <;> simp at hEq
  | cons a rest ih =>
    by_cases ha : a.1 = m.target
    · rw [List.find?_cons_of_pos _ (by simpa using ha)]
      constructor
      · intro h
        obtain rfl : a = entry := Option.some.inj h
        exact ⟨[], rest, rfl, by simp, ha⟩
      · rintro ⟨pre, post, hEq, hpre, htgt⟩
        cases pre with
        | nil =>
          obtain ⟨rfl, -⟩ := List.cons.inj hEq
          rfl
        | cons b pre =>
          obtain ⟨rfl, -⟩ := List.cons.inj hEq
          exact absurd ha (hpre a (by simp))
    · rw [List.find?_cons_of_neg _ (by simpa using ha)]
      rw [ih]
      constructor
      · rintro ⟨pre, post, hEq, hpre, htgt⟩
        refine ⟨a :: pre, post, by rw [hEq]; rfl, ?_, htgt⟩
        intro x hx
        rcases List.mem_cons.mp hx with rfl | hx
        · exact ha
        · exact hpre x hx
      · rintro ⟨pre, post, hEq, hpre, htgt⟩
        cases pre with
        | nil =>
          obtain ⟨rfl, -⟩ := List.cons.inj hEq
          exact absurd htgt ha
        | cons b pre =>
          obtain ⟨rfl, hrest⟩ := List.cons.inj hEq
          exact ⟨pre, post, hrest, fun x hx => hpre x (List.mem_cons_of_mem _ hx), htgt⟩

/-- `USBLogger::filtered` agrees with the specification's target-filter
admission rule. -/
theorem filtered_iff (lg : USBLogger) (m : Metadata) :
    lg.filtered m = true ↔ specTargetAdmits lg.filters m := by
  unfold USBLogger.filtered specTargetAdmits
  cases hf : lg.filters with
  | nil => simp
  | cons a rest =>
    simp only [List.isEmpty_cons, Bool.false_eq_true, if_false]
    constructor
    · intro h
      cases hfind : (a :: rest).find? (fun p => p.1 == m.target) with
      | none => rw [hfind] at h; exact absurd h (by simp)
      | some entry =>
        obtain ⟨t, lvl⟩ := entry
        rw [hfind] at h
        obtain ⟨pre, post, hEq, hpre, htgt⟩ := (find?_target_eq_some m (t, lvl) _).mp hfind
        refine Or.inr ⟨pre, (t, lvl), post, hEq, hpre, htgt, ?_⟩
        cases hl : lvl with
        | none => exact Or.inl rfl
        | some l =>
          refine Or.inr ⟨l, rfl, ?_⟩
          rw [hl] at h
          simpa [Option.filter] using h
    · rintro (h | ⟨pre, entry, post, hEq, hpre, htgt, hAdm⟩)
      · exact absurd h (by simp)
      · obtain ⟨t, lvl⟩ := entry
        have hfind : (a :: rest).find? (fun p => p.1 == m.target) = some (t, lvl) :=
          (find?_target_eq_some m (t, lvl) _).mpr ⟨pre, post, hEq, hpre, htgt⟩
        rw [hfind]
        rcases hAdm with hNone | ⟨l, hSome, hle⟩
        · simp at hNone
          simp [hNone]
        · simp at hSome
          simp [hSome, Option.filter, hle]

/-! ## Claim theorems -/

/-- C1: the polling loop of `read_bytes_timeout` does NOT terminate exactly
when the buffer is full or the timeout has elapsed.  With the default
1000 ms timeout, a 2-byte buffer, one byte arriving immediately and another
within the window, the loop returns after the very first poll (count 1,
elapsed 0 ms < 1000 ms), leaving the second byte unread; and with a 0 ms
timeout already elapsed (5 ms after start) it does not stop, polling past
the end of the one-step trace.  The comparison on `mod.rs` line 214 is
inverted with respect to its own comment "Stop the loop if the timeout is
reached". -/
theorem read_bytes_timeout_returns_before_deadline :
    USBSerial.read_bytes_timeout initialState 0
        [{ arrivals := [42], clock := 0 }, { arrivals := [43], clock := 500 }] [] [0, 0]
      = some (1, [42, 0]) ∧
    USBSerial.read_bytes_timeout (USBSerial.set_timeout 0 initialState) 0
        [{ arrivals := [], clock := 5 }] [] [0, 0]
      = none := by
  constructor <;> rfl

/-- C2 counterexample: after a first `init` installed the filter table
`[("motor", Warn)]`, a second `init` with an empty filter list fails with
the already-active condition but does NOT leave the logger state unchanged:
the installed filter table has been overwritten with the second call's
(empty) filters. -/
theorem init_second_call_changes_filters :
    (USBLogger.init { max_level := .trace, filters := [] } stateAfterFirstInit).1
        = .error .alreadySet ∧
    stateAfterFirstInit.logger.filters = [("motor", some .warn)] ∧
    (USBLogger.init { max_level := .trace, filters := [] } stateAfterFirstInit).2.logger.filters
        = [] ∧
    (USBLogger.init { max_level := .trace, filters := [] } stateAfterFirstInit).2.logger.filters
        ≠ stateAfterFirstInit.logger.filters := by
  refine ⟨rfl, rfl, rfl, ?_⟩
  decide

/-- C2 amended: if the pipeline is already active (a logger is installed and
the enabled flag is set), a second `init` fails with the already-active
condition and leaves the enabled flag, the process-wide maximum severity,
the registration and the serial timeout unchanged — but the installed
filter table is overwritten with the second call's filters before the
failure is detected. -/
theorem init_second_call_fails (config : LoggingConfig) (s : ProcessState)
    (hInst : s.loggerInstalled = true) (hEn : s.logger.enabled = true) :
    (USBLogger.init config s).1 = .error .alreadySet ∧
    (USBLogger.init config s).2.logger.enabled = s.logger.enabled ∧
    (USBLogger.init config s).2.maxLevel = s.maxLevel ∧
    (USBLogger.init config s).2.loggerInstalled = s.loggerInstalled ∧
    (USBLogger.init config s).2.serialTimeout = s.serialTimeout ∧
    (USBLogger.init config s).2.logger.filters = config.filters := by
  simp [USBLogger.init, hInst, hEn]

/-- C2 witness: the amended statement applied to the concrete
already-active state produced by the first `init`. -/
theorem init_second_call_fails_witness :
    (USBLogger.init { max_level := .trace, filters := [] } stateAfterFirstInit).1
        = .error .alreadySet ∧
    (USBLogger.init { max_level := .trace, filters := [] } stateAfterFirstInit).2.logger.enabled
        = stateAfterFirstInit.logger.enabled ∧
    (USBLogger.init { max_level := .trace, filters := [] } stateAfterFirstInit).2.maxLevel
        = stateAfterFirstInit.maxLevel ∧
    (USBLogger.init { max_level := .trace, filters := [] } stateAfterFirstInit).2.loggerInstalled
        = stateAfterFirstInit.loggerInstalled ∧
    (USBLogger.init { max_level := .trace, filters := [] } stateAfterFirstInit).2.serialTimeout
        = stateAfterFirstInit.serialTimeout ∧
    (USBLogger.init { max_level := .trace, filters := [] } stateAfterFirstInit).2.logger.filters
        = [] :=
  init_second_call_fails { max_level := .trace, filters := [] } stateAfterFirstInit rfl rfl

/-- C3: `enabled(record)` is true iff the pipeline is active, the record's
severity passes the process-wide maximum severity, and the target filter
admits the record — where an empty filter table admits everything and a
non-empty one admits exactly the records whose target has an exact-match
entry (the first such entry) that either carries no override severity or an
override the record's severity passes; a target absent from a non-empty
table is rejected. -/
theorem enabledOn_iff (lg : USBLogger) (maxLevel : LevelFilter) (m : Metadata) :
    lg.enabledOn maxLevel m = true ↔
      lg.enabled = true ∧ m.level.le maxLevel = true ∧ specTargetAdmits lg.filters m := by
  unfold USBLogger.enabledOn
  rw [Bool.and_eq_true, Bool.and_eq_true, and_assoc, filtered_iff]

/-- C3 witness: a concrete active logger with filter table
`[("motor", Warn)]` enables an Error-severity record targeting "motor". -/
theorem enabledOn_iff_witness :
    (USBLogger.mk true [("motor", some .warn)]).enabledOn .trace
        { level := .error, target := "motor" } = true :=
  (enabledOn_iff (USBLogger.mk true [("motor", some .warn)]) .trace
      { level := .error, target := "motor" }).mpr
    ⟨rfl, rfl,
      Or.inr ⟨[], ("motor", some .warn), [], rfl, by simp, rfl,
        Or.inr ⟨.warn, rfl, rfl⟩⟩⟩

/-- C4: `read_bytes` performs one hardware read capped at `min(A, L)`,
returns `min(A, L)`, and the buffer afterwards holds exactly the first
`min(A, L)` bytes of the stream, verbatim and in order at its start, with
the remainder of the buffer untouched and its length preserved. -/
theorem read_bytes_min_copy (pending buffer : List Nat) :
    (USBSerial.read_bytes pending buffer).1 = min pending.length buffer.length ∧
    (USBSerial.read_bytes pending buffer).2
        = pending.take (min pending.length buffer.length)
          ++ buffer.drop (min pending.length buffer.length) ∧
    (USBSerial.read_bytes pending buffer).2.length = buffer.length := by
  rw [read_bytes_eq]
  refine ⟨rfl, rfl, ?_⟩
  simp only [List.length_append, List.length_take, List.length_drop]
  omega

/-- C5: whenever `read_bytes_timeout` returns, the count is at most the
buffer length, the buffer keeps its length, and the region past the count
is never written — the hardware read model only ever writing at most the
`length - count` bytes it is asked for. -/
theorem read_bytes_timeout_bounded (s : ProcessState) (start : Nat)
    (steps : List PollStep) (pending buffer : List Nat) (count : Nat) (out : List Nat)
    (h : USBSerial.read_bytes_timeout s start steps pending buffer = some (count, out)) :
    count ≤ buffer.length ∧ out.length = buffer.length ∧
      out.drop count = buffer.drop count := by
  obtain ⟨-, h₂, h₃, h₄⟩ :=
    read_bytes_timeout_go_bounds s.serialTimeout start buffer.length steps
      pending buffer 0 rfl (Nat.zero_le _) (count, out) h
  exact ⟨h₂, h₃, h₄⟩

/-- C5 witness: the bound applied to a concrete run returning one byte into
a 2-byte buffer. -/
theorem read_bytes_timeout_bounded_witness :
    1 ≤ ([0, 0] : List Nat).length ∧
      ([42, 0] : List Nat).length = ([0, 0] : List Nat).length ∧
      ([42, 0] : List Nat).drop 1 = ([0, 0] : List Nat).drop 1 :=
  read_bytes_timeout_bounded initialState 0
    [{ arrivals := [42], clock := 0 }] [] [0, 0] 1 [42, 0] rfl

/-- C6: every enabled record produces exactly one line: opening bracket,
the ColorEncoder escape sequence for the severity's color (Error→bright-red,
Warn→bright-yellow, Info→bright-blue, Debug→magenta, Trace→bright-black),
the severity text, the style-clear escape sequence, a space, the target, a
space, the millisecond timestamp, a closing bracket and colon, the message,
and a carriage-return-then-newline terminator. -/
theorem log_line_format (lg : USBLogger) (maxLevel : LevelFilter) (now : Nat)
    (r : Record) (h : lg.enabledOn maxLevel r.metadata = true) :
    lg.log maxLevel now r =
      some ("[" ++ EscapeSequence.render { fg := some (specSeverityColor r.level), bg := none, styles := [] }
        ++ r.level.text
        ++ EscapeSequence.render { fg := none, bg := none, styles := [Style.clear] }
        ++ " " ++ r.target ++ " " ++ toString now ++ "]: " ++ r.message ++ "\r" ++ "\n") := by
  unfold USBLogger.log
  rw [if_pos h]
  cases hl : r.level <;> rfl

/-- C6 witness: the format applied to a concrete enabled Info record. -/
theorem log_line_format_witness :
    (USBLogger.mk true []).log .trace 5 { level := .info, target := "main", message := "hello" } =
      some ("[" ++ EscapeSequence.render { fg := some (specSeverityColor .info), bg := none, styles := [] }
        ++ "INFO"
        ++ EscapeSequence.render { fg := none, bg := none, styles := [Style.clear] }
        ++ " " ++ "main" ++ " " ++ toString 5 ++ "]: " ++ "hello" ++ "\r" ++ "\n") :=
  log_line_format (USBLogger.mk true []) .trace 5
    { level := .info, target := "main", message := "hello" } rfl

/-- C7: ColorEncoder rendering: an empty spec renders exactly
introducer + terminator; foreground Red renders introducer + "31" +
terminator; foreground RGB(1,2,3) renders introducer + "38;2;1;2;3" +
terminator; and with color output disabled every spec renders the empty
string. -/
theorem escape_sequence_render_cases :
    EscapeSequence.new.render = ANSI_ESCAPE ++ ANSI_ESCAPE_END ∧
    (EscapeSequence.new.set_fg Color.red).render = ANSI_ESCAPE ++ "31" ++ ANSI_ESCAPE_END ∧
    (EscapeSequence.new.set_fg (Color.trueColor 1 2 3)).render
        = ANSI_ESCAPE ++ "38;2;1;2;3" ++ ANSI_ESCAPE_END ∧
    ∀ s : EscapeSequence, s.renderNoColor = "" :=
  ⟨rfl, rfl, rfl, fun _ => rfl⟩

/-- C8: both text reads return the "no data" result on a zero-byte capture,
fail with the decode error when the captured bytes are not valid UTF-8, and
otherwise return exactly the captured bytes decoded as text.  For
`read_str` the captured bytes are exactly the first `min(A, 256)` bytes of
the stream; for `read_str_timeout` they are the first `read_in` bytes the
polling loop put into the 256-byte scratch buffer. -/
theorem read_str_control_flow :
    (∀ pending scratch : List Nat, scratch.length = 256 →
      (min pending.length 256 = 0 → USBSerial.read_str pending scratch = .ok none) ∧
      (min pending.length 256 ≠ 0 →
        utf8Decode (pending.take (min pending.length 256)) = none →
        USBSerial.read_str pending scratch = .error .invalid) ∧
      (∀ text, min pending.length 256 ≠ 0 →
        utf8Decode (pending.take (min pending.length 256)) = some text →
        USBSerial.read_str pending scratch = .ok (some text))) ∧
    (∀ (s : ProcessState) (start : Nat) (steps : List PollStep)
        (pending scratch : List Nat) (read_in : Nat) (buf : List Nat),
      USBSerial.read_bytes_timeout s start steps pending scratch = some (read_in, buf) →
      (read_in = 0 →
        USBSerial.read_str_timeout s start steps pending scratch = some (.ok none)) ∧
      (read_in ≠ 0 → utf8Decode (buf.take read_in) = none →
        USBSerial.read_str_timeout s start steps pending scratch = some (.error .invalid)) ∧
      (∀ text, read_in ≠ 0 → utf8Decode (buf.take read_in) = some text →
        USBSerial.read_str_timeout s start steps pending scratch
          = some (.ok (some text)))) := by
  constructor
  · intro pending scratch hs
    have hr := read_bytes_eq pending scratch
    rw [hs] at hr
    have hnp : min pending.length 256 ≤ pending.length := Nat.min_le_left _ _
    have htake : (pending.take (min pending.length 256)).length = min pending.length 256 := by
      simp only [List.length_take]
      omega
    have hcap : (pending.take (min pending.length 256)
          ++ scratch.drop (min pending.length 256)).take (min pending.length 256)
        = pending.take (min pending.length 256) := List.take_left' htake
    refine ⟨?_, ?_, ?_⟩
    · intro h0
      unfold USBSerial.read_str
      rw [hr]
      simp [h0]
    · intro hne hdec
      unfold USBSerial.read_str
      rw [hr]
      simp only [if_neg hne, hcap, hdec]
    · intro text hne hdec
      unfold USBSerial.read_str
      rw [hr]
      simp only [if_neg hne, hcap, hdec]
  · intro s start steps pending scratch read_in buf h
    refine ⟨?_, ?_, ?_⟩
    · intro h0
      unfold USBSerial.read_str_timeout
      rw [h]
      simp [h0]
    · intro hne hdec
      unfold USBSerial.read_str_timeout
      rw [h]
      simp only [if_neg hne, hdec]
    · intro text hne hdec
      unfold USBSerial.read_str_timeout
      rw [h]
      simp only [if_neg hne, hdec]

/-- C8 witness: reading the two ASCII bytes of "hi" through `read_str`
decodes to their two scalar values. -/
theorem read_str_control_flow_witness :
    USBSerial.read_str [104, 105] (List.replicate 256 0) = .ok (some [104, 105]) :=
  (read_str_control_flow.1 [104, 105] (List.replicate 256 0)
      (by rw [List.length_replicate])).2.2
    [104, 105] (by decide) (by decide)

/-- C9: `stop_bits` never returns 0: when the stop-bits byte decoded from
the line-coding register (its big-endian leading byte) is 0 the function
returns 1, and otherwise it returns that byte unchanged. -/
theorem stop_bits_never_zero (coding1 : Nat) :
    USBSerial.stop_bits coding1 ≠ 0 ∧
    (coding1 / 2 ^ 24 % 256 = 0 → USBSerial.stop_bits coding1 = 1) ∧
    (coding1 / 2 ^ 24 % 256 ≠ 0 →
      USBSerial.stop_bits coding1 = coding1 / 2 ^ 24 % 256) := by
  simp only [USBSerial.stop_bits]
  split <;> omega

/-- C9 witness: a register whose stop-bits byte is 0 yields 1; one whose
stop-bits byte is 3 yields 3. -/
theorem stop_bits_never_zero_witness :
    USBSerial.stop_bits 0 = 1 ∧ USBSerial.stop_bits (3 * 2 ^ 24) = 3 :=
  ⟨(stop_bits_never_zero 0).2.1 (by decide),
   ((stop_bits_never_zero (3 * 2 ^ 24)).2.2 (by decide)).trans (by decide)⟩

/-- C10: the process-wide read timeout is 1000 ms at process start; after
`set_timeout(ms)` it equals `ms`; `set_timeout` changes no other state
(logger, registration, max level); `init` does not change the timeout; and
`read_bytes_timeout` depends on the state only through the timeout. -/
theorem serial_timeout_lifecycle :
    initialState.serialTimeout = 1000 ∧
    (∀ (t : Nat) (s : ProcessState), t < 2 ^ 32 →
      (USBSerial.set_timeout t s).serialTimeout = t) ∧
    (∀ (t : Nat) (s : ProcessState),
      (USBSerial.set_timeout t s).logger = s.logger ∧
      (USBSerial.set_timeout t s).loggerInstalled = s.loggerInstalled ∧
      (USBSerial.set_timeout t s).maxLevel = s.maxLevel) ∧
    (∀ (config : LoggingConfig) (s : ProcessState),
      (USBLogger.init config s).2.serialTimeout = s.serialTimeout) ∧
    (∀ (s₁ s₂ : ProcessState) (start : Nat) (steps : List PollStep)
        (pending buffer : List Nat),
      s₁.serialTimeout = s₂.serialTimeout →
      USBSerial.read_bytes_timeout s₁ start steps pending buffer
        = USBSerial.read_bytes_timeout s₂ start steps pending buffer) := by
  refine ⟨rfl, ?_, ?_, ?_, ?_⟩
  · intro t s ht
    show t % 2 ^ 32 = t
    exact Nat.mod_eq_of_lt ht
  · intro t s
    exact ⟨rfl, rfl, rfl⟩
  · intro config s
    by_cases h : s.loggerInstalled <;> simp [USBLogger.init, h]
  · intro s₁ s₂ start steps pending buffer h
    unfold USBSerial.read_bytes_timeout
    rw [h]

/-- C10 witness: `set_timeout 250` on the initial state yields timeout 250. -/
theorem serial_timeout_lifecycle_witness :
    (USBSerial.set_timeout 250 initialState).serialTimeout = 250 :=
  serial_timeout_lifecycle.2.1 250 initialState (by decide)

end Arduino
